import Mathlib

/-!
Verification of the knots C-complexity analyzer against its specification.

The program consumes tree-sitter concrete syntax trees of C translation
units.  We embed the tree-sitter node view shallowly: a node carries its
kind string, the optional field tag under which it hangs in its parent
(modelling child_by_field_name lookups), the UTF-8 slice of source text it
spans (modelling utf8_text), and its ordered children.  The metric
functions from src/knots/src/complexity.rs are translated one-to-one on
this representation.  The boundary detector and comparison engine from
knots-test-complexity are embedded over explicit inputs: regex capture
outcomes become function arguments, file contents become strings, and the
two regex scans used for coverage extraction are modelled by equivalent
character scanners whose semantics are documented at their definitions.
Rust f64 threshold arithmetic is modelled by exact rationals; every value
compared in the claims is exactly representable.
-/

/-! ## Tree-sitter node model -/

mutual
/-- A tree-sitter syntax node: kind, optional field tag in its parent,
source text slice, ordered children. -/
inductive CNode : Type where
  | mk (kind : String) (field : Option String) (text : String) (children : CForest)
deriving DecidableEq
/-- Ordered list of child nodes (a separate inductive so that all metric
walks are structural recursions). -/
inductive CForest : Type where
  | nil : CForest
  | cons (n : CNode) (ns : CForest) : CForest
deriving DecidableEq
end

def CNode.kind : CNode → String
  | .mk k _ _ _ => k

def CNode.fieldTag : CNode → Option String
  | .mk _ f _ _ => f

def CNode.text : CNode → String
  | .mk _ _ t _ => t

def CNode.children : CNode → CForest
  | .mk _ _ _ cs => cs

/-- Models Node.child_by_field_name: first child carrying the field tag. -/
def childByFieldName (n : CNode) (name : String) : Option CNode :=
  go n.children
where
  go : CForest → Option CNode
    | .nil => none
    | .cons c cs => if c.fieldTag = some name then some c else go cs

/-- Left fold over a forest, used to port the imperative child loops. -/
def CForest.foldl {α : Type} (f : α → CNode → α) (init : α) : CForest → α
  | .nil => init
  | .cons c cs => CForest.foldl f (f init c) cs

/-- Models str::contains for string patterns. -/
def containsAux (pat : List Char) : List Char → Bool
  | [] => pat.isEmpty
  | l@(_ :: t) => pat.isPrefixOf l || containsAux pat t

def strContains (hay pat : String) : Bool :=
  containsAux pat.data hay.data

/-- Models str::starts_with for string patterns. -/
def strStartsWith (s pat : String) : Bool :=
  pat.data.isPrefixOf s.data

/-! ## Metric engine (src/knots/src/complexity.rs) -/

/-- The operator check shared by the McCabe, cognitive and ABC walks:
read the node field named operator and keep its text when it is a
logical operator. -/
def binaryLogicalOperator (n : CNode) : Option String :=
  match childByFieldName n "operator" with
  | some op => if op.text = "&&" || op.text = "||" then some op.text else none
  | none => none

/-- Per-node decision-point contribution of visit_node_mccabe. -/
def mccabeContribution (n : CNode) : Nat :=
  if n.kind = "if_statement" then 1
  else if n.kind = "while_statement" then 1
  else if n.kind = "do_statement" then 1
  else if n.kind = "for_statement" then 1
  else if n.kind = "switch_statement" then 1
  else if n.kind = "binary_expression" then
    match binaryLogicalOperator n with
    | some _ => 1
    | none => 0
  else if n.kind = "conditional_expression" then 1
  else if n.kind = "goto_statement" then 1
  else 0

mutual
def visit_node_mccabe : CNode → Nat
  | .mk k f t cs => mccabeContribution (.mk k f t cs) + visit_forest_mccabe cs
def visit_forest_mccabe : CForest → Nat
  | .nil => 0
  | .cons c cs => visit_node_mccabe c + visit_forest_mccabe cs
end

/-- McCabe cyclomatic complexity: base 1 plus all decision points. -/
def calculate_mccabe_complexity (n : CNode) : Nat :=
  1 + visit_node_mccabe n

mutual
/-- Port of visit_node_cognitive: nesting level and parent logical
operator are threaded exactly as in the source.  Control-flow kinds add
1 + nesting and recurse with nesting + 1 and no parent operator; the
else clause adds 1 and, when its first if_statement child exists,
descends into that child directly; goto adds 1 and passes the parent
operator through; a logical binary_expression adds 1 only when its
operator differs from the parent operator and passes its own operator
down; every other node passes both parameters through unchanged. -/
def visit_node_cognitive (nesting : Nat) (parentOp : Option String) : CNode → Nat
  | .mk k f t cs =>
    if k = "if_statement" then
      1 + nesting + visit_forest_cognitive (nesting + 1) none cs
    else if k = "else_clause" then
      match elseIfLoop nesting cs with
      | some v => v
      | none => 1 + visit_forest_cognitive nesting none cs
    else if k = "while_statement" || k = "do_statement" || k = "for_statement" then
      1 + nesting + visit_forest_cognitive (nesting + 1) none cs
    else if k = "switch_statement" then
      1 + nesting + visit_forest_cognitive (nesting + 1) none cs
    else if k = "catch_clause" then
      1 + nesting + visit_forest_cognitive (nesting + 1) none cs
    else if k = "goto_statement" then
      1 + visit_forest_cognitive nesting parentOp cs
    else if k = "binary_expression" then
      match binaryLogicalOperator (.mk k f t cs) with
      | some op =>
        (if parentOp = some op then 0 else 1) + visit_forest_cognitive nesting (some op) cs
      | none => visit_forest_cognitive nesting parentOp cs
    else
      visit_forest_cognitive nesting parentOp cs
/-- Port of the child loop inside the else_clause arm: find the first
if_statement child; on success add 1 and visit that child with the
current nesting, otherwise report none. -/
def elseIfLoop (nesting : Nat) : CForest → Option Nat
  | .nil => none
  | .cons (.mk k2 _f2 _t2 cs2) rest =>
    if k2 = "if_statement" then some (1 + visit_forest_cognitive nesting none cs2)
    else elseIfLoop nesting rest
def visit_forest_cognitive (nesting : Nat) (parentOp : Option String) : CForest → Nat
  | .nil => 0
  | .cons c cs =>
    visit_node_cognitive nesting parentOp c + visit_forest_cognitive nesting parentOp cs
end

/-- Cognitive complexity: start at 0 and nesting 0 with no parent
operator. -/
def calculate_cognitive_complexity (n : CNode) : Nat :=
  visit_node_cognitive 0 none n

def nestingKind (k : String) : Bool :=
  k = "if_statement" || k = "while_statement" || k = "do_statement" ||
  k = "for_statement" || k = "switch_statement" || k = "compound_statement"

mutual
def visit_node_nesting (currentDepth : Nat) : CNode → Nat
  | .mk k _ _ cs =>
    if nestingKind k then
      max (currentDepth + 1) (visit_forest_nesting (currentDepth + 1) cs)
    else
      visit_forest_nesting currentDepth cs
def visit_forest_nesting (currentDepth : Nat) : CForest → Nat
  | .nil => 0
  | .cons c cs =>
    max (visit_node_nesting currentDepth c) (visit_forest_nesting currentDepth cs)
end

/-- Maximum nesting depth of control structures. -/
def calculate_nesting_depth (n : CNode) : Nat :=
  visit_node_nesting 0 n

structure AbcComplexity where
  assignments : Nat
  branches : Nat
  conditions : Nat
deriving DecidableEq, Repr

def AbcComplexity.add (x y : AbcComplexity) : AbcComplexity :=
  ⟨x.assignments + y.assignments, x.branches + y.branches, x.conditions + y.conditions⟩

/-- Per-node contribution of visit_node_abc. -/
def abcContribution (n : CNode) : AbcComplexity :=
  if n.kind = "assignment_expression" then ⟨1, 0, 0⟩
  else if n.kind = "update_expression" then ⟨1, 0, 0⟩
  else if n.kind = "call_expression" then ⟨0, 1, 0⟩
  else if n.kind = "if_statement" || n.kind = "while_statement" ||
          n.kind = "do_statement" || n.kind = "for_statement" ||
          n.kind = "switch_statement" || n.kind = "conditional_expression" then ⟨0, 0, 1⟩
  else if n.kind = "binary_expression" then
    match binaryLogicalOperator n with
    | some _ => ⟨0, 0, 1⟩
    | none => ⟨0, 0, 0⟩
  else ⟨0, 0, 0⟩

mutual
def visit_node_abc : CNode → AbcComplexity
  | .mk k f t cs => AbcComplexity.add (abcContribution (.mk k f t cs)) (visit_forest_abc cs)
def visit_forest_abc : CForest → AbcComplexity
  | .nil => ⟨0, 0, 0⟩
  | .cons c cs => AbcComplexity.add (visit_node_abc c) (visit_forest_abc cs)
end

/-- ABC complexity triple. -/
def calculate_abc_complexity (n : CNode) : AbcComplexity :=
  visit_node_abc n

mutual
def visit_node_returns : CNode → Nat
  | .mk k _ _ cs => (if k = "return_statement" then 1 else 0) + visit_forest_returns cs
def visit_forest_returns : CForest → Nat
  | .nil => 0
  | .cons c cs => visit_node_returns c + visit_forest_returns cs
end

/-- Number of return statements in the subtree. -/
def calculate_return_count (n : CNode) : Nat :=
  visit_node_returns n

/-- Maps cyclomatic complexity to the implementation score, matching the
four match arms of the source (the final arm also covers 0, which no
well-formed function produces). -/
def map_cyclomatic_to_implementation_score (cyclomatic : Nat) : Nat :=
  if 1 ≤ cyclomatic ∧ cyclomatic ≤ 5 then (cyclomatic - 1) / 2
  else if 6 ≤ cyclomatic ∧ cyclomatic ≤ 10 then 3 + (cyclomatic - 6) / 2
  else if 11 ≤ cyclomatic ∧ cyclomatic ≤ 20 then 6 + (cyclomatic - 11) / 5
  else min 9 10

/-- Flag state accumulated by the parameter loop of analyze_parameters. -/
structure ParamScanState where
  paramCount : Nat
  hasPointer : Bool
  hasFunctionPointer : Bool
  hasVoidPtr : Bool
  hasVariadic : Bool
deriving DecidableEq

/-- One iteration of the parameter loop: count parameter declarations and
classify their source text by substring checks, in the order of the
source (void pointer, then function pointer, then plain pointer). -/
def scanParam (st : ParamScanState) (param : CNode) : ParamScanState :=
  if param.kind = "parameter_declaration" then
    let st := { st with paramCount := st.paramCount + 1 }
    let pt := param.text
    if strContains pt "void*" || strContains pt "void *" then { st with hasVoidPtr := true }
    else if strContains pt "(*" || strContains pt "* )" then { st with hasFunctionPointer := true }
    else if strContains pt "*" then { st with hasPointer := true }
    else st
  else if param.kind = "variadic_parameter" then { st with hasVariadic := true }
  else st

/-- The declarator loop of analyze_parameters: scan the children of every
parameter_list child. -/
def scanDeclaratorChildren (st : ParamScanState) : CForest → ParamScanState
  | .nil => st
  | .cons c cs =>
    if c.kind = "parameter_list" then
      scanDeclaratorChildren (CForest.foldl scanParam st c.children) cs
    else
      scanDeclaratorChildren st cs

/-- Input score of a declarator, from the flag state. -/
def analyze_parameters (declarator : CNode) : Nat :=
  let st := scanDeclaratorChildren ⟨0, false, false, false, false⟩ declarator.children
  if st.hasFunctionPointer || st.hasVoidPtr || st.hasVariadic then 10
  else if st.hasPointer && st.paramCount > 1 then 8
  else if st.hasPointer then 6
  else if st.paramCount > 1 then 4
  else if st.paramCount = 1 then 2
  else 0

/-- Output score from the textual return type. -/
def analyze_return_type (typeNode : CNode) : Nat :=
  let typeText := typeNode.text
  if strContains typeText "void" && !strContains typeText "*" then 0
  else if strContains typeText "struct" then 10
  else if strContains typeText "*" then 6
  else if strContains typeText "enum" then 4
  else 2

/-- The child loop of calculate_signature_complexity: the scores are
assigned only inside a child of kind function_definition (where the type
lookup is nested under a successful declarator lookup) or declaration
(where the two lookups are independent); every other child leaves the
accumulator unchanged. -/
def signatureScanChild (acc : Nat × Nat) (child : CNode) : Nat × Nat :=
  if child.kind = "function_definition" then
    match childByFieldName child "declarator" with
    | some declarator =>
      let inputScore := analyze_parameters declarator
      let outputScore :=
        match childByFieldName child "type" with
        | some typeNode => analyze_return_type typeNode
        | none => acc.2
      (inputScore, outputScore)
    | none => acc
  else if child.kind = "declaration" then
    let inputScore :=
      match childByFieldName child "declarator" with
      | some declarator => analyze_parameters declarator
      | none => acc.1
    let outputScore :=
      match childByFieldName child "type" with
      | some typeNode => analyze_return_type typeNode
      | none => acc.2
    (inputScore, outputScore)
  else acc

/-- Signature sub-score: scan the children of the given node and cap the
combined score at 10. -/
def calculate_signature_complexity (node : CNode) : Nat :=
  let scores := CForest.foldl signatureScanChild (0, 0) node.children
  min (scores.1 + scores.2) 10

/-! ## Concrete syntax-tree fixtures (shapes produced by tree-sitter-c) -/

/-- The declarator of the C function int f(int a). -/
def c1Declarator : CNode :=
  .mk "function_declarator" (some "declarator") "f(int a)"
    (.cons (.mk "identifier" (some "declarator") "f" .nil)
    (.cons (.mk "parameter_list" (some "parameters") "(int a)"
      (.cons (.mk "(" none "(" .nil)
      (.cons (.mk "parameter_declaration" none "int a"
        (.cons (.mk "primitive_type" (some "type") "int" .nil)
        (.cons (.mk "identifier" (some "declarator") "a" .nil) .nil)))
      (.cons (.mk ")" none ")" .nil) .nil))))
    .nil))

/-- The return type node of the C function int f(int a). -/
def c1ReturnType : CNode :=
  .mk "primitive_type" (some "type") "int" .nil

/-- The function_definition node of int f(int a) \x7b return a; \x7d,
as handed to the metric engine by collect_function_metrics. -/
def c1Function : CNode :=
  .mk "function_definition" none "int f(int a) \x7b return a; \x7d"
    (.cons c1ReturnType
    (.cons c1Declarator
    (.cons (.mk "compound_statement" (some "body") "\x7b return a; \x7d"
      (.cons (.mk "\x7b" none "\x7b" .nil)
      (.cons (.mk "return_statement" none "return a;"
        (.cons (.mk "return" none "return" .nil)
        (.cons (.mk "identifier" none "a" .nil)
        (.cons (.mk ";" none ";" .nil) .nil))))
      (.cons (.mk "\x7d" none "\x7d" .nil) .nil))))
    .nil)))

/-- Scenario S1: the function_definition node of
void f()\x7b int x = 1; \x7d. -/
def s1Function : CNode :=
  .mk "function_definition" none "void f()\x7b int x = 1; \x7d"
    (.cons (.mk "primitive_type" (some "type") "void" .nil)
    (.cons (.mk "function_declarator" (some "declarator") "f()"
      (.cons (.mk "identifier" (some "declarator") "f" .nil)
      (.cons (.mk "parameter_list" (some "parameters") "()"
        (.cons (.mk "(" none "(" .nil)
        (.cons (.mk ")" none ")" .nil) .nil)))
      .nil)))
    (.cons (.mk "compound_statement" (some "body") "\x7b int x = 1; \x7d"
      (.cons (.mk "\x7b" none "\x7b" .nil)
      (.cons (.mk "declaration" none "int x = 1;"
        (.cons (.mk "primitive_type" (some "type") "int" .nil)
        (.cons (.mk "init_declarator" (some "declarator") "x = 1"
          (.cons (.mk "identifier" (some "declarator") "x" .nil)
          (.cons (.mk "=" none "=" .nil)
          (.cons (.mk "number_literal" (some "value") "1" .nil) .nil))))
        (.cons (.mk ";" none ";" .nil) .nil))))
      (.cons (.mk "\x7d" none "\x7d" .nil) .nil))))
    .nil)))

/-- The inner logical chain b && c of the C2 expression. -/
def c2InnerChain : CNode :=
  .mk "binary_expression" none "b && c"
    (.cons (.mk "identifier" (some "left") "b" .nil)
    (.cons (.mk "&&" (some "operator") "&&" .nil)
    (.cons (.mk "identifier" (some "right") "c" .nil) .nil)))

/-- The negated parenthesized subexpression !(b && c). -/
def c2Negation : CNode :=
  .mk "unary_expression" (some "right") "!(b && c)"
    (.cons (.mk "!" (some "operator") "!" .nil)
    (.cons (.mk "parenthesized_expression" (some "argument") "(b && c)"
      (.cons (.mk "(" none "(" .nil)
      (.cons c2InnerChain
      (.cons (.mk ")" none ")" .nil) .nil))))
    .nil))

/-- The expression a && !(b && c): two same-operator logical chains
separated by a unary negation and parentheses. -/
def c2Expr : CNode :=
  .mk "binary_expression" none "a && !(b && c)"
    (.cons (.mk "identifier" (some "left") "a" .nil)
    (.cons (.mk "&&" (some "operator") "&&" .nil)
    (.cons c2Negation .nil)))

/-! ## Boundary detector (src/knots-test-complexity/src/boundary.rs)

The detector works with Rust i64 values; we model them as integers
together with the i64 bounds, and model the saturating operations by
explicit clamping.  Regex matching is not re-implemented for the two
detection phases: the capture lists a pattern can produce are taken as
arguments, so the theorems quantify over every possible regex outcome.
The numeric-literal extraction used for coverage is modelled by character
scanners whose equivalence to the patterns is argued at the definitions. -/

def i64Min : Int := -(2 ^ 63)

def i64Max : Int := 2 ^ 63 - 1

/-- Models i64::saturating_sub(1). -/
def saturatingSub1 (x : Int) : Int :=
  if x - 1 < i64Min then i64Min else x - 1

/-- Models i64::saturating_add(1). -/
def saturatingAdd1 (x : Int) : Int :=
  if i64Max < x + 1 then i64Max else x + 1

structure BoundaryValue where
  variable_name : String
  type_name : String
  min_value : Int
  max_value : Int
deriving DecidableEq

/-- The four required boundary values of a BoundaryValue. -/
def BoundaryValue.boundary_values (b : BoundaryValue) : List Int :=
  [b.min_value, saturatingSub1 b.min_value, b.max_value, saturatingAdd1 b.max_value]

/-- Models char::to_digit(radix) as used by integer parsing. -/
def digitVal (radix : Nat) (c : Char) : Option Nat :=
  let raw : Option Nat :=
    if '0' ≤ c ∧ c ≤ '9' then some (c.toNat - 48)
    else if 'a' ≤ c ∧ c ≤ 'f' then some (c.toNat - 97 + 10)
    else if 'A' ≤ c ∧ c ≤ 'F' then some (c.toNat - 65 + 10)
    else none
  match raw with
  | some d => if d < radix then some d else none
  | none => none

/-- Digit accumulation of integer parsing: every intermediate value is
checked against the limit, as Rust checked arithmetic aborts the parse
at the first overflowing step. -/
def accumDigits (radix limit : Nat) : Nat → List Char → Option Nat
  | acc, [] => some acc
  | acc, c :: cs =>
    match digitVal radix c with
    | some d =>
      if acc * radix + d ≤ limit then accumDigits radix limit (acc * radix + d) cs
      else none
    | none => none

/-- Nonnegative branch of the i64 parse: magnitude capped at 2^63 - 1. -/
def i64_from_digits (radix : Nat) (ds : List Char) : Option Int :=
  match ds with
  | [] => none
  | _ => (accumDigits radix (2 ^ 63 - 1) 0 ds).map (fun n => (n : Int))

/-- Negative branch of the i64 parse: magnitude capped at 2^63. -/
def i64_from_digits_neg (radix : Nat) (ds : List Char) : Option Int :=
  match ds with
  | [] => none
  | _ => (accumDigits radix (2 ^ 63) 0 ds).map (fun n => -(n : Int))

/-- Character-level body of the i64 parse: an optional sign followed by
at least one digit, failing on overflow. -/
def i64_from_chars (radix : Nat) : List Char → Option Int
  | [] => none
  | c :: cs =>
    if c = '+' then i64_from_digits radix cs
    else if c = '-' then i64_from_digits_neg radix cs
    else i64_from_digits radix (c :: cs)

/-- Models i64::from_str_radix (and str::parse::<i64> at radix 10). -/
def i64_from_str (radix : Nat) (s : String) : Option Int :=
  i64_from_chars radix s.data

/-- The fixed-width integer type table of detect_integer_types. -/
def type_patterns : List (String × Int × Int) :=
  [("uint8_t", 0, 255),
   ("uint16_t", 0, 65535),
   ("uint32_t", 0, 4294967295),
   ("int8_t", -128, 127),
   ("int16_t", -32768, 32767),
   ("int32_t", -2147483648, 2147483647)]

/-- Phase one of detect_boundaries.  The identifiers the declaration
regex of each type name captures in the source are supplied by
capturesFor; identifiers presumed to be macros are skipped, every other
capture yields a BoundaryValue with the range of the table. -/
def detect_integer_types (capturesFor : String → List String) : List BoundaryValue :=
  type_patterns.flatMap fun tp =>
    (capturesFor tp.1).filterMap fun varName =>
      if strStartsWith varName "MAX_" || strStartsWith varName "MIN_" then none
      else some ⟨varName, tp.1, tp.2.1, tp.2.2⟩

/-- The comparison and macro-constant pattern table of
detect_range_checks, with its boundary-type tags. -/
def range_check_patterns : List (String × String) :=
  [("if\\s*\\(\\s*\\w+\\s*>=?\\s*(\\d+)", "range_check_upper"),
   ("if\\s*\\(\\s*\\w+\\s*<=?\\s*(\\d+)", "range_check_lower"),
   ("if\\s*\\(\\s*(\\d+)\\s*<=?\\s*\\w+", "range_check_lower"),
   ("if\\s*\\(\\s*(\\d+)\\s*>=?\\s*\\w+", "range_check_upper"),
   ("#define\\s+\\w*MAX\\w*\\s+(\\d+)", "constant_max"),
   ("#define\\s+\\w*MIN\\w*\\s+(\\d+)", "constant_min")]

/-- Phase two of detect_boundaries.  The decimal strings each pattern
captures are supplied by capturesFor; each string that parses as i64
yields a BoundaryValue whose range brackets the parsed constant, with
saturating arithmetic. -/
def detect_range_checks (capturesFor : String → List String) : List BoundaryValue :=
  range_check_patterns.flatMap fun pat =>
    (capturesFor pat.1).filterMap fun valStr =>
      match i64_from_str 10 valStr with
      | some value =>
        let range :=
          if strContains pat.2 "upper" || strContains pat.2 "max" then
            (saturatingSub1 value, value)
          else
            (value, saturatingAdd1 value)
        some ⟨"constant_" ++ toString value, pat.2, range.1, range.2⟩
      | none => none

/-- detect_boundaries runs both phases and returns the concatenation of
their emissions. -/
def detect_boundaries (caps1 caps2 : String → List String) : List BoundaryValue :=
  detect_integer_types caps1 ++ detect_range_checks caps2

/-! ### Literal extraction for coverage

analyze_test_coverage collects every i64 parse success of a capture of
the decimal pattern (-?\d+)\b and of the hex pattern \b(0[xX][0-9a-fA-F]+)\b
over the raw test source.  These two patterns are simple enough that
their match semantics over the text is an explicit left-to-right scan:
a decimal match is an optional minus followed by a maximal digit run
whose following character is not a word character (if the maximal run
fails this boundary every shorter run ends against a digit and fails it
too, so maximal-run-plus-check is exact); a hex match additionally
requires the character before the leading 0 to be a non-word character.
Matches are non-overlapping and scanning resumes after each match, as
captures_iter does.  The HashSet of found values is modelled as the
list of insertions; only membership is ever consulted. -/

/-- Word characters of the regex word-boundary assertion (ASCII). -/
def isWordChar (c : Char) : Bool :=
  c.isAlphanum || c = '_'

/-- The word boundary after a digit run: end of input or a non-word
character. -/
def wordBoundaryAfter : List Char → Bool
  | [] => true
  | c :: _ => !isWordChar c

/-- Try to match (-?\d+)\b at the head of the text; on success return
the captured characters (sign included) and the rest of the text. -/
def decMatchAt : List Char → Option (List Char × List Char)
  | [] => none
  | c :: cs =>
    if c = '-' then
      let ds := cs.takeWhile Char.isDigit
      let rest := cs.dropWhile Char.isDigit
      if !ds.isEmpty && wordBoundaryAfter rest then some ('-' :: ds, rest) else none
    else if c.isDigit then
      let ds := (c :: cs).takeWhile Char.isDigit
      let rest := (c :: cs).dropWhile Char.isDigit
      if wordBoundaryAfter rest then some (ds, rest) else none
    else none

/-- Left-to-right scan collecting the i64 parse successes of every
decimal match; fuel is the length of the text, enough because every
step consumes at least one character. -/
def scanDecGo : Nat → List Char → List Int
  | 0, _ => []
  | _, [] => []
  | fuel + 1, l =>
    match decMatchAt l with
    | some (tok, rest) =>
      (i64_from_str 10 (String.mk tok)).toList ++ scanDecGo fuel rest
    | none =>
      match l with
      | [] => []
      | _ :: cs => scanDecGo fuel cs

def scanDecimalValues (src : List Char) : List Int :=
  scanDecGo src.length src

def isHexDigitChar (c : Char) : Bool :=
  c.isDigit || ('a' ≤ c && c ≤ 'f') || ('A' ≤ c && c ≤ 'F')

/-- Try to match 0[xX][0-9a-fA-F]+\b at the head of the text (the
leading word boundary is checked by the caller); on success return the
hex digits after the 0x prefix and the rest of the text. -/
def hexMatchAt : List Char → Option (List Char × List Char)
  | '0' :: x :: rest =>
    if x = 'x' || x = 'X' then
      let ds := rest.takeWhile isHexDigitChar
      let r2 := rest.dropWhile isHexDigitChar
      if !ds.isEmpty && wordBoundaryAfter r2 then some (ds, r2) else none
    else none
  | _ => none

/-- Left-to-right scan for hex literals, threading whether the previous
character was a word character (the leading word-boundary assertion).
After a match the last consumed character is a hex digit, hence a word
character. -/
def scanHexGo : Nat → Bool → List Char → List Int
  | 0, _, _ => []
  | _, _, [] => []
  | fuel + 1, prevWord, l =>
    match l with
    | [] => []
    | c :: cs =>
      if prevWord then scanHexGo fuel (isWordChar c) cs
      else
        match hexMatchAt l with
        | some (ds, rest) =>
          (i64_from_str 16 (String.mk ds)).toList ++ scanHexGo fuel true rest
        | none => scanHexGo fuel (isWordChar c) cs

def scanHexValues (src : List Char) : List Int :=
  scanHexGo src.length false src

/-- The found_test_values insertions of analyze_test_coverage: the
decimal pass followed by the hex pass. -/
def foundTestValues (source : String) : List Int :=
  scanDecimalValues source.data ++ scanHexValues source.data

/-- Specification-side unsigned reading of a hex digit string. -/
def hexVal (ds : List Char) : Nat :=
  ds.foldl (fun a c => a * 16 + (digitVal 16 c).getD 0) 0

/-! ## Comparison engine (src/knots-test-complexity/src/analyzer.rs)

The f64 arithmetic of the analyzer is modelled with exact rationals.
The pass verdict compares the computed ratio with the threshold value,
and every quantity a claim instantiates is exactly representable, so
the Boolean structure of the verdict is preserved.  Reading the two
files and running the boundary detector perform I/O; their outcome is
an explicit argument (ok coverage percent, or the error message), and
the warning printed to stderr is modelled as a returned list. -/

def cyclomaticRatio (testCyc sourceCyc : Nat) : ℚ :=
  if 0 < sourceCyc then (testCyc : ℚ) / (sourceCyc : ℚ) else 1

structure AnalysisOutcome where
  passed : Bool
  boundary_analysis : Option ℚ
  warnings : List String
deriving DecidableEq

/-- Port of TestQualityAnalyzer::analyze restricted to the fields the
claims consult: passed starts as the threshold comparison of the
cyclomatic ratio; when boundary checking is requested and detection
succeeds, coverage below boundary_threshold * 100 forces failure and
the analysis is kept; when detection fails a warning is emitted and the
boundary field is omitted. -/
def analyzeModel (testCyc sourceCyc : Nat) (threshold boundary_threshold : ℚ)
    (check_boundaries : Bool) (detector : Except String ℚ) : AnalysisOutcome :=
  let ratio := cyclomaticRatio testCyc sourceCyc
  let passed0 : Bool := decide (threshold ≤ ratio)
  if check_boundaries then
    match detector with
    | .ok coverage =>
      if coverage < boundary_threshold * 100 then
        { passed := false, boundary_analysis := some coverage, warnings := [] }
      else
        { passed := passed0, boundary_analysis := some coverage, warnings := [] }
    | .error e =>
      { passed := passed0, boundary_analysis := none,
        warnings := ["Warning: Boundary analysis failed: " ++ e] }
  else
    { passed := passed0, boundary_analysis := none, warnings := [] }

/-! ## Claim theorems -/

/-- C1: the claim fails on the shipped code.  At the function definition
int f(int a), handed to the metric engine per function_definition node
by collect_function_metrics, calculate_signature_complexity returns 0:
its child scan looks for a function_definition or declaration child of
the function_definition node itself and finds none, so neither score is
ever assigned.  The scoring the claim (and the spec) describes is fully
implemented by analyze_parameters and analyze_return_type and would
yield min(2 + 2, 10) = 4, which is nonzero; those helpers are
unreachable from the shipped call path. -/
theorem claim_C1_signature_dead_code :
    calculate_signature_complexity c1Function = 0 ∧
    min (analyze_parameters c1Declarator + analyze_return_type c1ReturnType) 10 = 4 := by
  decide

/-- C2 counterexample: in a && !(b && c) the two same-operator chains
are separated by a unary negation and parentheses, both of which pass
the parent-operator context through unchanged, so the inner chain is
suppressed and cognitive complexity is 1, not the 2 the claim
requires. -/
theorem claim_C2_counterexample :
    calculate_cognitive_complexity c2Expr = 1 ∧
    calculate_cognitive_complexity c2Expr ≠ 2 := by
  decide

/-- C2 amended: the parent-operator context is reset only by the
explicitly handled control-flow kinds; every other non-logical node,
including unary expressions, parenthesized expressions and non-logical
binary expressions, passes the context through unchanged, so two
same-operator chains separated by such nodes contribute 1 in total, as
the evaluation of a && !(b && c) shows. -/
theorem claim_C2_amended :
    calculate_cognitive_complexity c2Expr = 1 ∧
    (∀ f t cs nesting p,
      visit_node_cognitive nesting p (.mk "unary_expression" f t cs) =
        visit_forest_cognitive nesting p cs) ∧
    (∀ f t cs nesting p,
      visit_node_cognitive nesting p (.mk "parenthesized_expression" f t cs) =
        visit_forest_cognitive nesting p cs) ∧
    (∀ f t cs nesting p,
      binaryLogicalOperator (.mk "binary_expression" f t cs) = none →
      visit_node_cognitive nesting p (.mk "binary_expression" f t cs) =
        visit_forest_cognitive nesting p cs) := by
  refine ⟨by decide, fun f t cs nesting p => rfl, fun f t cs nesting p => rfl, ?_⟩
  intro f t cs nesting p h
  simp [visit_node_cognitive, h]

/-- C2 amended witness: a non-logical binary expression (operator +)
inherits the surrounding parent-operator context unchanged. -/
theorem claim_C2_amended_witness :
    visit_node_cognitive 0 (some "&&")
        (.mk "binary_expression" none "a + b"
          (.cons (.mk "identifier" (some "left") "a" .nil)
          (.cons (.mk "+" (some "operator") "+" .nil)
          (.cons (.mk "identifier" (some "right") "b" .nil) .nil)))) =
      visit_forest_cognitive 0 (some "&&")
        (.cons (.mk "identifier" (some "left") "a" .nil)
        (.cons (.mk "+" (some "operator") "+" .nil)
        (.cons (.mk "identifier" (some "right") "b" .nil) .nil))) :=
  claim_C2_amended.2.2.2 none "a + b" _ 0 (some "&&") (by decide)

/-- C3 counterexample: the declaration int x = 1; is an
init_declarator, not an assignment_expression, so the A component of
ABC for scenario S1 is 0 and the triple is not (1, 0, 0). -/
theorem claim_C3_counterexample :
    calculate_abc_complexity s1Function ≠ ⟨1, 0, 0⟩ ∧
    calculate_abc_complexity s1Function = ⟨0, 0, 0⟩ := by
  decide

/-- C3 amended: scenario S1 evaluates to mccabe 1, cognitive 0,
nesting 1, abc (0, 0, 0) and zero returns; the declaration with
initializer contributes nothing to A. -/
theorem claim_C3_amended :
    calculate_mccabe_complexity s1Function = 1 ∧
    calculate_cognitive_complexity s1Function = 0 ∧
    calculate_nesting_depth s1Function = 1 ∧
    calculate_abc_complexity s1Function = ⟨0, 0, 0⟩ ∧
    calculate_return_count s1Function = 0 := by
  decide

/-- C7: when boundary checking is requested and the detector fails, the
result omits the boundary analysis, carries exactly the warning line,
and the verdict is the cyclomatic-ratio test alone. -/
theorem claim_C7 (t s : Nat) (τ τb : ℚ) (e : String) :
    (analyzeModel t s τ τb true (.error e)).boundary_analysis = none ∧
    (analyzeModel t s τ τb true (.error e)).warnings =
      ["Warning: Boundary analysis failed: " ++ e] ∧
    ((analyzeModel t s τ τb true (.error e)).passed = true ↔ τ ≤ cyclomaticRatio t s) := by
  refine ⟨rfl, rfl, ?_⟩
  simp [analyzeModel]

/-- C10 sample test source: a digit inside a comment, a subtraction
a-1, and a digit sequence inside a string literal. -/
def c10Sample : String :=
  "/* boundary 7 */ int y = a-1; s = \"42\";"

/-- C10: the decimal extraction runs over the raw text, so the comment
digit 7 and the string-literal digits 42 are collected, and the
subtraction a-1 contributes -1 rather than 1. -/
theorem claim_C10 :
    foundTestValues c10Sample = [7, -1, 42] ∧
    (7 : Int) ∈ foundTestValues c10Sample ∧
    (-1 : Int) ∈ foundTestValues c10Sample ∧
    (42 : Int) ∈ foundTestValues c10Sample ∧
    (1 : Int) ∉ foundTestValues c10Sample := by
  decide

/-- C5: when boundary checking is disabled, or detection succeeds with
coverage meeting the boundary threshold, the verdict is exactly the
threshold comparison of the cyclomatic ratio, and a source total of 0
makes the ratio 1. -/
theorem claim_C5 (t s : Nat) (τ τb : ℚ) (cb : Bool) (det : Except String ℚ)
    (h : cb = false ∨ ∃ c, det = .ok c ∧ τb * 100 ≤ c) :
    ((analyzeModel t s τ τb cb det).passed = true ↔ τ ≤ cyclomaticRatio t s) ∧
    (s = 0 → cyclomaticRatio t s = 1) := by
  constructor
  · rcases h with rfl | ⟨c, rfl, hc⟩
    · simp [analyzeModel]
    · simp only [analyzeModel, not_lt.mpr hc, if_false]
      split_ifs <;> simp
  · rintro rfl
    simp [cyclomaticRatio]

/-- C5 witness: the exact tie of scenario S7, test total 7 against
subject total 10 at threshold 0.70, passes. -/
theorem claim_C5_witness :
    (analyzeModel 7 10 (7 / 10) (4 / 5) false (.error "io")).passed = true := by
  have h := claim_C5 7 10 (7 / 10) (4 / 5) false (.error "io") (Or.inl rfl)
  exact h.1.mpr (by norm_num [cyclomaticRatio])

/-- C6: for in-range bounds the four required boundary values are
exactly min, min - 1, max, max + 1, where the decrement saturates at
i64::MIN and the increment saturates at i64::MAX. -/
theorem claim_C6 (b : BoundaryValue)
    (h1 : i64Min ≤ b.min_value) (h2 : b.max_value ≤ i64Max) :
    b.boundary_values =
      [b.min_value,
       if b.min_value = i64Min then i64Min else b.min_value - 1,
       b.max_value,
       if b.max_value = i64Max then i64Max else b.max_value + 1] := by
  simp only [BoundaryValue.boundary_values, saturatingSub1, saturatingAdd1,
    List.cons.injEq, and_true, true_and]
  constructor
  · split_ifs <;> omega
  · split_ifs <;> omega

/-- C6 witness: at the extreme range both arithmetic operations
saturate. -/
theorem claim_C6_witness :
    BoundaryValue.boundary_values ⟨"v", "t", i64Min, i64Max⟩ =
      [i64Min, i64Min, i64Max, i64Max] := by
  have h := claim_C6 ⟨"v", "t", i64Min, i64Max⟩ le_rfl le_rfl
  simpa using h

/-- Shared fact: from cyclomatic 21 upward the implementation score is
the final match arm. -/
theorem impl_score_ge21 (m : Nat) (h : 21 ≤ m) :
    map_cyclomatic_to_implementation_score m = 9 := by
  unfold map_cyclomatic_to_implementation_score
  have h1 : ¬(1 ≤ m ∧ m ≤ 5) := by omega
  have h2 : ¬(6 ≤ m ∧ m ≤ 10) := by omega
  have h3 : ¬(11 ≤ m ∧ m ≤ 20) := by omega
  simp [h1, h2, h3]

/-- Shared fact: the implementation score is monotone on the finite
prefix below the saturation band. -/
theorem impl_score_mono_small :
    ∀ m < 22, ∀ n < 22, 1 ≤ m → m ≤ n →
      map_cyclomatic_to_implementation_score m ≤ map_cyclomatic_to_implementation_score n := by
  decide

/-- Shared fact: the implementation score never exceeds 9. -/
theorem impl_score_le9 (m : Nat) : map_cyclomatic_to_implementation_score m ≤ 9 := by
  by_cases h : m < 22
  · revert h
    have : ∀ m < 22, map_cyclomatic_to_implementation_score m ≤ 9 := by decide
    exact this m
  · rw [impl_score_ge21 m (by omega)]

/-- C8: the McCabe-to-implementation map is monotone non-decreasing for
every mccabe value from 1 up, is bounded by 9, follows the three
piecewise integer-division bands, and maps every value from 21 up to
the saturated score 9. -/
theorem claim_C8 :
    (∀ m n, 1 ≤ m → m ≤ n →
      map_cyclomatic_to_implementation_score m ≤ map_cyclomatic_to_implementation_score n) ∧
    (∀ m, map_cyclomatic_to_implementation_score m ≤ 9) ∧
    (∀ m, 1 ≤ m → m ≤ 5 → map_cyclomatic_to_implementation_score m = (m - 1) / 2) ∧
    (∀ m, 6 ≤ m → m ≤ 10 → map_cyclomatic_to_implementation_score m = 3 + (m - 6) / 2) ∧
    (∀ m, 11 ≤ m → m ≤ 20 → map_cyclomatic_to_implementation_score m = 6 + (m - 11) / 5) ∧
    (∀ m, 21 ≤ m → map_cyclomatic_to_implementation_score m = 9) := by
  refine ⟨?_, impl_score_le9, ?_, ?_, ?_, impl_score_ge21⟩
  · intro m n hm hmn
    by_cases hn : n < 22
    · exact impl_score_mono_small m (by omega) n hn hm hmn
    · rw [impl_score_ge21 n (by omega)]
      exact impl_score_le9 m
  · intro m h1 h2
    unfold map_cyclomatic_to_implementation_score
    simp [show 1 ≤ m ∧ m ≤ 5 from ⟨h1, h2⟩]
  · intro m h1 h2
    unfold map_cyclomatic_to_implementation_score
    have ha : ¬(1 ≤ m ∧ m ≤ 5) := by omega
    simp [ha, show 6 ≤ m ∧ m ≤ 10 from ⟨h1, h2⟩]
  · intro m h1 h2
    unfold map_cyclomatic_to_implementation_score
    have ha : ¬(1 ≤ m ∧ m ≤ 5) := by omega
    have hb : ¬(6 ≤ m ∧ m ≤ 10) := by omega
    simp [ha, hb, show 11 ≤ m ∧ m ≤ 20 from ⟨h1, h2⟩]

/-- C8 witness: the monotone part applied across two bands and the
saturation arm applied at 25. -/
theorem claim_C8_witness :
    map_cyclomatic_to_implementation_score 3 ≤ map_cyclomatic_to_implementation_score 7 ∧
    map_cyclomatic_to_implementation_score 25 = 9 :=
  ⟨claim_C8.1 3 7 (by decide) (by decide), claim_C8.2.2.2.2.2 25 (by decide)⟩

/-- Projection of a literal String wrapper. -/
theorem String_data_mk (l : List Char) : (String.mk l).data = l := rfl

/-- Shared fact: the unsigned hex fold never decreases. -/
theorem foldl_hex_mono (ds : List Char) (a : Nat) :
    a ≤ ds.foldl (fun x c => x * 16 + (digitVal 16 c).getD 0) a := by
  induction ds generalizing a with
  | nil => simp
  | cons c cs ih =>
    simp only [List.foldl_cons]
    calc a ≤ a * 16 + (digitVal 16 c).getD 0 := by omega
    _ ≤ _ := ih _

/-- Shared fact: on valid hex digits, the step-checked accumulation
succeeds exactly when the unsigned value fits under the limit, and then
returns that value. -/
theorem accumDigits_hex_eq (limit : Nat) (ds : List Char) :
    ∀ a : Nat, a ≤ limit → (∀ c ∈ ds, (digitVal 16 c).isSome) →
    accumDigits 16 limit a ds =
      if ds.foldl (fun x c => x * 16 + (digitVal 16 c).getD 0) a ≤ limit
      then some (ds.foldl (fun x c => x * 16 + (digitVal 16 c).getD 0) a)
      else none := by
  induction ds with
  | nil =>
    intro a ha _
    simp [accumDigits, ha]
  | cons c cs ih =>
    intro a ha hall
    obtain ⟨d, hd⟩ := Option.isSome_iff_exists.mp (hall c (by simp))
    have hgd : (digitVal 16 c).getD 0 = d := by simp [hd]
    simp only [accumDigits, hd, List.foldl_cons, hgd, Option.getD_some]
    by_cases hle : a * 16 + d ≤ limit
    · rw [if_pos hle]
      exact ih (a * 16 + d) hle (fun x hx => hall x (by simp [hx]))
    · rw [if_neg hle]
      have hmono := foldl_hex_mono cs (a * 16 + d)
      rw [if_neg (by omega)]

/-- C4 counterexample: the test source x = 0xFFFFFFFFFFFFFFFF;
contributes nothing to found_test_values: the hex literal fits in 64
unsigned bits, but the claim requires it to be stored as the bit
pattern -1, and the code skips it because the signed parse overflows. -/
theorem claim_C4_counterexample :
    foundTestValues "x = 0xFFFFFFFFFFFFFFFF;" = [] ∧
    (-1 : Int) ∉ foundTestValues "x = 0xFFFFFFFFFFFFFFFF;" := by
  decide

/-- C4 amended: a captured hex digit string is parsed as a signed i64,
so its unsigned value is stored unchanged when it is at most
i64::MAX = 2^63 - 1, and the literal is skipped otherwise, even when
the value still fits in 64 unsigned bits; no bit-pattern conversion
takes place. -/
theorem claim_C4_amended (ds : List Char) (hne : ds ≠ [])
    (hall : ∀ c ∈ ds, (digitVal 16 c).isSome) :
    i64_from_str 16 (String.mk ds) =
      if hexVal ds ≤ 2 ^ 63 - 1 then some ((hexVal ds : Nat) : Int) else none := by
  obtain ⟨c, cs, rfl⟩ := List.exists_cons_of_ne_nil hne
  have hc := hall c (by simp)
  have hplus : c ≠ '+' := by
    rintro rfl
    rw [show digitVal 16 '+' = none from rfl] at hc
    simp at hc
  have hminus : c ≠ '-' := by
    rintro rfl
    rw [show digitVal 16 '-' = none from rfl] at hc
    simp at hc
  simp only [i64_from_str, String_data_mk, i64_from_chars, if_neg hplus, if_neg hminus,
    i64_from_digits]
  rw [accumDigits_hex_eq (2 ^ 63 - 1) (c :: cs) 0 (by norm_num) hall]
  simp only [hexVal]
  by_cases hle : (c :: cs).foldl (fun x d => x * 16 + (digitVal 16 d).getD 0) 0 ≤ 2 ^ 63 - 1
  · rw [if_pos hle, if_pos hle]
    simp
  · rw [if_neg hle, if_neg hle]
    simp

/-- C4 amended witness: the two-digit literal FF parses to 255. -/
theorem claim_C4_amended_witness :
    i64_from_str 16 (String.mk ['F', 'F']) = some 255 := by
  rw [claim_C4_amended ['F', 'F'] (by decide) (by decide)]
  decide

/-- Shared fact: the step-checked accumulation never exceeds its
limit. -/
theorem accumDigits_le (radix limit : Nat) :
    ∀ (ds : List Char) (a n : Nat), a ≤ limit →
      accumDigits radix limit a ds = some n → n ≤ limit := by
  intro ds
  induction ds with
  | nil =>
    intro a n ha h
    simp only [accumDigits, Option.some.injEq] at h
    omega
  | cons c cs ih =>
    intro a n ha h
    simp only [accumDigits] at h
    cases hd : digitVal radix c with
    | none => rw [hd] at h; simp at h
    | some d =>
      rw [hd] at h
      simp only at h
      by_cases hle : a * radix + d ≤ limit
      · rw [if_pos hle] at h
        exact ih _ _ hle h
      · rw [if_neg hle] at h
        simp at h

/-- Shared fact: every successful nonnegative-branch parse lies in the
i64 range. -/
theorem i64_from_digits_bounds (radix : Nat) (ds : List Char) (v : Int)
    (h : i64_from_digits radix ds = some v) : i64Min ≤ v ∧ v ≤ i64Max := by
  cases ds with
  | nil => simp [i64_from_digits] at h
  | cons c cs =>
    rw [show i64_from_digits radix (c :: cs) =
        (accumDigits radix (2 ^ 63 - 1) 0 (c :: cs)).map (fun n => (n : Int)) from rfl] at h
    cases hacc : accumDigits radix (2 ^ 63 - 1) 0 (c :: cs) with
    | none => rw [hacc] at h; exact absurd h (by simp)
    | some n =>
      rw [hacc] at h
      simp at h
      subst h
      have hle := accumDigits_le radix (2 ^ 63 - 1) (c :: cs) 0 n (by norm_num) hacc
      constructor
      · have : (0 : Int) ≤ (n : Int) := Int.natCast_nonneg n
        simp only [i64Min]
        omega
      · simp only [i64Max]
        norm_num at hle ⊢
        omega

/-- Shared fact: every successful negative-branch parse lies in the
i64 range. -/
theorem i64_from_digits_neg_bounds (radix : Nat) (ds : List Char) (v : Int)
    (h : i64_from_digits_neg radix ds = some v) : i64Min ≤ v ∧ v ≤ i64Max := by
  cases ds with
  | nil => simp [i64_from_digits_neg] at h
  | cons c cs =>
    rw [show i64_from_digits_neg radix (c :: cs) =
        (accumDigits radix (2 ^ 63) 0 (c :: cs)).map (fun n => -(n : Int)) from rfl] at h
    cases hacc : accumDigits radix (2 ^ 63) 0 (c :: cs) with
    | none => rw [hacc] at h; exact absurd h (by simp)
    | some n =>
      rw [hacc] at h
      simp at h
      subst h
      have hle := accumDigits_le radix (2 ^ 63) (c :: cs) 0 n (by norm_num) hacc
      constructor
      · simp only [i64Min]
        norm_num at hle ⊢
        omega
      · have : (0 : Int) ≤ (n : Int) := Int.natCast_nonneg n
        simp only [i64Max]
        omega

/-- Shared fact: every successful i64 parse lies in the i64 range. -/
theorem i64_from_str_bounds (radix : Nat) (s : String) (v : Int)
    (h : i64_from_str radix s = some v) : i64Min ≤ v ∧ v ≤ i64Max := by
  unfold i64_from_str at h
  cases hl : s.data with
  | nil => rw [hl] at h; simp [i64_from_chars] at h
  | cons c cs =>
    rw [hl] at h
    simp only [i64_from_chars] at h
    by_cases hp : c = '+'
    · rw [if_pos hp] at h
      exact i64_from_digits_bounds radix cs v h
    · rw [if_neg hp] at h
      by_cases hm : c = '-'
      · rw [if_pos hm] at h
        exact i64_from_digits_neg_bounds radix cs v h
      · rw [if_neg hm] at h
        exact i64_from_digits_bounds radix (c :: cs) v h

/-- C9: every BoundaryValue emitted by either detection phase, for any
capture outcome of the regex patterns, satisfies min_value less than or
equal to max_value. -/
theorem claim_C9 (caps1 caps2 : String → List String) (bv : BoundaryValue)
    (h : bv ∈ detect_boundaries caps1 caps2) :
    bv.min_value ≤ bv.max_value := by
  rcases List.mem_append.mp h with h1 | h2
  · simp only [detect_integer_types, List.mem_flatMap, List.mem_filterMap] at h1
    obtain ⟨tp, htp, v, hv, heq⟩ := h1
    by_cases hmac : strStartsWith v "MAX_" || strStartsWith v "MIN_"
    · rw [if_pos hmac] at heq
      simp at heq
    · rw [if_neg hmac] at heq
      obtain rfl := Option.some_injective _ heq
      fin_cases htp <;> norm_num
  · simp only [detect_range_checks, List.mem_flatMap, List.mem_filterMap] at h2
    obtain ⟨pat, hpat, vs, hvs, heq⟩ := h2
    cases hparse : i64_from_str 10 vs with
    | none => rw [hparse] at heq; simp at heq
    | some value =>
      rw [hparse] at heq
      have hb := i64_from_str_bounds 10 vs value hparse
      by_cases hup : strContains pat.2 "upper" || strContains pat.2 "max"
      · simp only [hup, if_true] at heq
        obtain rfl := Option.some_injective _ heq
        simp only [saturatingSub1]
        split_ifs <;> simp_all
      · simp only [hup, if_false] at heq
        obtain rfl := Option.some_injective _ heq
        simp only [saturatingAdd1]
        split_ifs <;> simp_all

/-- C9 witness: a uint8_t declaration capture yields the 0..255 range,
with min below max. -/
theorem claim_C9_witness :
    (⟨"counter", "uint8_t", 0, 255⟩ : BoundaryValue).min_value ≤
      (⟨"counter", "uint8_t", 0, 255⟩ : BoundaryValue).max_value :=
  claim_C9 (fun t => if t = "uint8_t" then ["counter"] else []) (fun _ => [])
    ⟨"counter", "uint8_t", 0, 255⟩ (by decide)
